import Mathlib

/-!
Verification development for the per-test-case prompt evaluation pipeline
(`functions/src/processTestCase.ts`) and the `TestCase` type guard
(`shared/types`, `isTestCase`).

Modelling conventions:
* JavaScript numbers appearing in control flow (the cosine-similarity score
  checked by the orchestrator's range guard) are modelled by `JsNum`, a
  rational together with the non-finite values `NaN`, `Infinity` and
  `-Infinity`, with JavaScript comparison semantics (every comparison with
  `NaN` is false).
* The two external services (OpenAI completions, Hugging Face embeddings)
  and the numeric value produced by the embedding/averaging/scoring pipeline
  are supplied by an environment `Env`; each service call is indexed by the
  attempt number so that an attempt-dependent outcome (fail twice, then
  succeed) can be expressed.
* The observable behaviour of one orchestrator invocation is a trace of
  `Event`s: status writes and result saves to the result store, individual
  external service call attempts, and the scoring step.
* The pure numeric helpers are embedded separately: `averageOfVectors` over
  `ℚ` (exact arithmetic) and `mathDot`/`mathNorm`/`cosineSimilarity` over
  `ℝ` (the idealisation of floating point used for the algebraic claims).
-/

/-- The three persisted statuses of a test-case result record. -/
inductive TestResultsStatus
  | IN_PROGRESS
  | DONE
  | ERROR
deriving DecidableEq, Repr

/-- A JavaScript number as seen by the orchestrator's range guard: a finite
value (modelled exactly as a rational) or one of the non-finite values. -/
inductive JsNum
  | finite (q : ℚ)
  | nan
  | posInf
  | negInf
deriving DecidableEq, Repr

/-- JavaScript `<` on numbers: any comparison involving `NaN` is false;
`-Infinity` is below every other value, `Infinity` above. -/
def jsLt : JsNum → JsNum → Bool
  | .nan, _ => false
  | _, .nan => false
  | .finite a, .finite b => decide (a < b)
  | .finite _, .posInf => true
  | .finite _, .negInf => false
  | .posInf, _ => false
  | .negInf, .negInf => false
  | .negInf, _ => true

/-- JavaScript `>` on numbers: `a > b` holds exactly when `b < a`. -/
def jsGt (a b : JsNum) : Bool := jsLt b a

/-- Rendering of a JavaScript number into an error message. -/
def jsNumToString : JsNum → String
  | .finite q => toString q
  | .nan => "NaN"
  | .posInf => "Infinity"
  | .negInf => "-Infinity"

/-- JavaScript truthiness of a string: only `""` is falsy. -/
def jsTruthyString (s : String) : Bool := s != ""

/-- JavaScript truthiness of a number: `0` is falsy (the fixture's `age`
field is an integer). -/
def jsTruthyNumber (n : Int) : Bool := n != 0

/-- JavaScript truthiness of an array value: every array is truthy,
including the empty array. -/
def jsTruthyArray (_arr : List String) : Bool := true

/-- JavaScript truthiness of an optional string field such as `testCase.id`:
falsy when absent (`undefined`) and when equal to `""`. -/
def jsTruthyOptString : Option String → Bool
  | none => false
  | some s => s != ""

/-- `bio` field of a test case (`shared/types`). -/
structure Bio where
  name : String
  age : Int
  aboutMe : String
deriving DecidableEq, Repr

/-- `context` field of a test case (`shared/types`). -/
structure Context where
  tone : String
  setting : String
  conversationType : String
deriving DecidableEq, Repr

/-- A test-case fixture (`shared/types`, `TestCase extends Partial<DataItem>`);
the identifier is optional. -/
structure TestCase where
  id : Option String
  context : Context
  bio : Bio
  utterance : String
  goodCompletions : List String
deriving DecidableEq, Repr

/-- A prompt candidate: identifier plus template string. -/
structure PromptCandidate where
  id : Option String
  prompt : String
deriving DecidableEq, Repr

/-- A run record (`PromptTestResults`): identifier plus generation
parameters forwarded to the services. -/
structure PromptTestResults where
  id : Option String
  llmModel : String
  embeddingsModel : String
  temperature : ℚ
  maxTokens : Int
deriving DecidableEq, Repr

/-- The type guard `isTestCase` (`shared/types`): a chain of JavaScript `&&`
over the fields. The object-presence checks (`testCase`, `testCase.context`,
`testCase.bio`, `testCase.goodCompletions`) are truthy for every structurally
valid `TestCase` — an array is truthy even when empty — so only the leaf
string/number checks can make the chain falsy. The function returns the
truthiness of the chain's value. -/
def isTestCase (testCase : TestCase) : Bool :=
  jsTruthyString testCase.context.tone &&
  jsTruthyString testCase.context.setting &&
  jsTruthyString testCase.context.conversationType &&
  jsTruthyString testCase.bio.name &&
  jsTruthyNumber testCase.bio.age &&
  jsTruthyString testCase.bio.aboutMe &&
  jsTruthyString testCase.utterance &&
  jsTruthyArray testCase.goodCompletions

/-- One pass of JavaScript `result.split(key).join(value)`: replace every
leftmost non-overlapping occurrence of `key` by `val`, scanning left to
right. `fuel` is a structural-recursion bound; it is always called with
`fuel = s.length`, which suffices because every step consumes at least one
character of `s`. For the (unused) empty key the model returns `s`
unchanged. -/
def replaceAllGo (key val : List Char) : List Char → Nat → List Char
  | s, 0 => s
  | [], _ + 1 => []
  | c :: rest, fuel + 1 =>
    if key ≠ [] ∧ key.isPrefixOf (c :: rest) then
      val ++ replaceAllGo key val ((c :: rest).drop key.length) fuel
    else
      c :: replaceAllGo key val rest fuel

/-- JavaScript `s.split(key).join(val)` on strings. -/
def replaceAll (s key val : String) : String :=
  ⟨replaceAllGo key.data val.data s.data s.data.length⟩

/-- `replaceMultiple` (`processTestCase.ts`): fold the replacements over the
progressively mutated working string, in the caller-supplied key order. -/
def replaceMultiple (original : String) (replacements : List (String × String)) : String :=
  replacements.foldl (fun result kv => replaceAll result kv.1 kv.2) original

/-- `OPENAI_MAX_RETRY` (`processTestCase.ts`). -/
def OPENAI_MAX_RETRY : Nat := 4

/-- `OPENAI_WAIT_TIME_SECONDS` (`processTestCase.ts`). -/
def OPENAI_WAIT_TIME_SECONDS : Nat := 5

/-- `HUGGINGFACE_MAX_RETRY` (`processTestCase.ts`). -/
def HUGGINGFACE_MAX_RETRY : Nat := 4

/-- `HUGGINGFACE_WAIT_TIME_SECONDS` (`processTestCase.ts`). -/
def HUGGINGFACE_WAIT_TIME_SECONDS : Nat := 5

/-- Modelled from the spec: `retryOnFailure` lives in
`functions/src/httpUtils.ts`, which is not among the provided sources; §4.2
specifies: invoke the operation; on success return immediately; on failure,
if attempts remain, wait `delaySeconds` (fixed) and retry; after
`maxAttempts` total attempts all failing, propagate the final error
unchanged, with no distinction between failure kinds. `retryAux op d i n`
performs attempt `i` with `n` further attempts allowed and returns the
result together with the number of invocations made and the total seconds
waited; the operation is indexed by attempt number so that an environment
can make distinct attempts behave differently. -/
def retryAux {ε α : Type} (op : Nat → Except ε α) (delaySeconds : Nat) :
    Nat → Nat → Except ε α × Nat × Nat
  | i, 0 => (op i, 1, 0)
  | i, n + 1 =>
    match op i with
    | .ok a => (.ok a, 1, 0)
    | .error _ =>
      let r := retryAux op delaySeconds (i + 1) n
      (r.1, r.2.1 + 1, r.2.2 + delaySeconds)

/-- Modelled from the spec: `retryOnFailure(operation, maxAttempts,
delaySeconds)` with `maxAttempts ≥ 1` (§4.2). Returns the final result, the
number of invocations of the operation, and the total seconds waited. -/
def retryOnFailure {ε α : Type} (op : Nat → Except ε α)
    (maxAttempts delaySeconds : Nat) : Except ε α × Nat × Nat :=
  retryAux op delaySeconds 0 (maxAttempts - 1)

/-- One observable event of an orchestrator invocation: a status write or a
result save to the result store (`updateTestCaseResultStatus` /
`saveTestCaseResult`, keyed by run id and test-case id), one attempt of an
external service call, or the averaging-and-scoring step. -/
inductive Event
  | statusWrite (runId tcId : String) (status : TestResultsStatus) (message : Option String)
  | saveResult (runId tcId : String) (score : JsNum) (completions : List String)
  | completionCall
  | embedGptCall
  | embedGoodCall
  | scoreComputed
deriving DecidableEq, Repr

/-- Behaviour of the bound external services and of the numeric pipeline for
one invocation. `completion prompt i` is the outcome of attempt `i` of the
OpenAI completion call on the formatted prompt; `embed texts i` the outcome
of attempt `i` of the Hugging Face embedding call on `texts`; `score` the
JavaScript number produced by averaging the two embedding sets and taking
their cosine similarity. -/
structure Env where
  completion : String → Nat → Except String (List String)
  embed : List String → Nat → Except String Unit
  score : JsNum

/-- The token-to-field map passed by `runPromptTestCase` to
`replaceMultiple`, in the source's key order. -/
def promptReplacements (testCase : TestCase) : List (String × String) :=
  [("{name}", testCase.bio.name),
   ("{age}", toString testCase.bio.age),
   ("{about_me}", testCase.bio.aboutMe),
   ("{conversation_type}", testCase.context.conversationType),
   ("{setting}", testCase.context.setting),
   ("{tone}", testCase.context.tone),
   ("{utterance}", testCase.utterance)]

/-- `runPromptTestCase` (`processTestCase.ts`): expand the template with the
fixture's fields, request completions through the retry wrapper, then
embeddings of the generated completions, then embeddings of the reference
completions, then average and score. Returns the result (completions plus
score, or the first error) and the trace of external call attempts and the
scoring step. -/
def runPromptTestCase (prompt : PromptCandidate) (testCase : TestCase) (env : Env) :
    Except String (List String × JsNum) × List Event :=
  let formattedPrompt := replaceMultiple prompt.prompt (promptReplacements testCase)
  let rc := retryOnFailure (env.completion formattedPrompt)
    OPENAI_MAX_RETRY OPENAI_WAIT_TIME_SECONDS
  let compTrace := List.replicate rc.2.1 Event.completionCall
  match rc.1 with
  | .error e => (.error e, compTrace)
  | .ok gptCompletions =>
    let r1 := retryOnFailure (env.embed gptCompletions)
      HUGGINGFACE_MAX_RETRY HUGGINGFACE_WAIT_TIME_SECONDS
    let t1 := List.replicate r1.2.1 Event.embedGptCall
    match r1.1 with
    | .error e => (.error e, compTrace ++ t1)
    | .ok _ =>
      let r2 := retryOnFailure (env.embed testCase.goodCompletions)
        HUGGINGFACE_MAX_RETRY HUGGINGFACE_WAIT_TIME_SECONDS
      let t2 := List.replicate r2.2.1 Event.embedGoodCall
      match r2.1 with
      | .error e => (.error e, compTrace ++ t1 ++ t2)
      | .ok _ =>
        (.ok (gptCompletions, env.score),
         compTrace ++ t1 ++ t2 ++ [Event.scoreComputed])

/-- `processTestCase` (`processTestCase.ts`): precondition checks on the two
identifiers (JavaScript `!testCase.id`, falsy for a missing or empty id),
then the `IN_PROGRESS` status write, then the pipeline inside `try`; any
pipeline failure, and a score failing the range guard
`score > 1 || score < -1`, lands in the `catch` branch, which persists
`ERROR` with a message; otherwise the score and completions are saved
(`saveTestCaseResult`, which persists `DONE`). The function's own result is
`ok` on every path past the precondition checks. The source's initialisers
`llmCompletions = []` and `cosineSimilarityScore = -Infinity` are dead: both
variables are either overwritten before use or unused on the failure path. -/
def processTestCase (prompt : PromptCandidate) (testCase : TestCase)
    (promptTestResults : PromptTestResults) (env : Env) :
    Except String Unit × List Event :=
  if jsTruthyOptString testCase.id = false then
    (.error "Test case id is missing", [])
  else if jsTruthyOptString promptTestResults.id = false then
    (.error "Prompt test results id is missing", [])
  else
    let tcId := testCase.id.getD ""
    let runId := promptTestResults.id.getD ""
    let inProgress := Event.statusWrite runId tcId .IN_PROGRESS none
    let r := runPromptTestCase prompt testCase env
    match r.1 with
    | .error e =>
      (.ok (), inProgress :: r.2 ++ [.statusWrite runId tcId .ERROR (some e)])
    | .ok res =>
      if jsGt res.2 (.finite 1) || jsLt res.2 (.finite (-1)) then
        (.ok (), inProgress :: r.2 ++
          [.statusWrite runId tcId .ERROR
            (some ("Error: Cosine similarity score is out of range [-1, 1]: "
              ++ jsNumToString res.2))])
      else
        (.ok (), inProgress :: r.2 ++ [.saveResult runId tcId res.2 res.1])

/-- JavaScript `acc.map((val, i) => val + vector[i])` from `averageOfVectors`:
keeps `acc`'s length and reads `vector` by index. An out-of-range read is
`undefined` in JavaScript (making the sum `NaN`); it is modelled as `0` and
never exercised, since every claim supplies equal-length vectors. -/
def addVec (acc vector : List ℚ) : List ℚ :=
  acc.mapIdx fun i val => val + vector.getD i 0

/-- `averageOfVectors` (`processTestCase.ts`): fold the element-wise sum over
the vectors starting from a zero vector of the first vector's length, then
divide each entry by the number of vectors. -/
def averageOfVectors (vectors : List (List ℚ)) : List ℚ :=
  (vectors.foldl addVec
      (List.replicate (vectors.headD []).length 0)).map
    (fun val => val / (vectors.length : ℚ))

/-- `math.dot` as used by `cosineSimilarity`: the sum of pairwise products. -/
def mathDot (A B : List ℝ) : ℝ := (List.zipWith (fun a b => a * b) A B).sum

/-- `math.norm` as used by `cosineSimilarity`: the Euclidean norm, the square
root of the sum of squares. -/
noncomputable def mathNorm (A : List ℝ) : ℝ :=
  Real.sqrt ((A.map fun a => a * a).sum)

/-- `cosineSimilarity` (`processTestCase.ts`): dot product divided by the
product of the Euclidean norms, in the real-number idealisation of the
floating-point computation. -/
noncomputable def cosineSimilarity (A B : List ℝ) : ℝ :=
  mathDot A B / (mathNorm A * mathNorm B)

/-! ### Concrete fixtures used by counterexamples and witnesses -/

/-- A structurally valid test case carrying an identifier. -/
def tcConcrete : TestCase :=
  ⟨some "t", ⟨"tone", "set", "conv"⟩, ⟨"nm", 5, "ab"⟩, "utt", ["g"]⟩

/-- A run record carrying an identifier. -/
def runConcrete : PromptTestResults := ⟨some "r", "gpt", "emb", 1, 10⟩

/-- A prompt candidate with a one-token template. -/
def pConcrete : PromptCandidate := ⟨some "p", "Hi {name}"⟩

/-- Both services succeed at the first attempt; the computed score is 0. -/
def envAllOk : Env := ⟨fun _ _ => .ok ["c"], fun _ _ => .ok (), .finite 0⟩

/-- Both services succeed; the computed score is `NaN` (as produced by a
zero-magnitude averaged embedding). -/
def envNaNScore : Env := ⟨fun _ _ => .ok ["c"], fun _ _ => .ok (), .nan⟩

/-- Both services succeed; the computed score is `Infinity`. -/
def envInfScore : Env := ⟨fun _ _ => .ok ["c"], fun _ _ => .ok (), .posInf⟩

/-- Every completion attempt fails. -/
def envCompletionFails : Env :=
  ⟨fun _ _ => .error "completion failed", fun _ _ => .ok (), .finite 0⟩

/-- Completions succeed with `["c"]`; every embedding attempt on `["c"]`
(the generated completions) fails. -/
def envEmbedGptFails : Env :=
  ⟨fun _ _ => .ok ["c"],
   fun texts _ => if texts = ["c"] then .error "embed gpt failed" else .ok (),
   .finite 0⟩

/-- Completions succeed with `["c"]`; every embedding attempt on `["g"]`
(the reference completions of `tcConcrete`) fails. -/
def envEmbedGoodFails : Env :=
  ⟨fun _ _ => .ok ["c"],
   fun texts _ => if texts = ["g"] then .error "embed good failed" else .ok (),
   .finite 0⟩

/-! ### Retry wrapper lemmas -/

/-- Shifting the attempt index of the operation commutes with `retryAux`. -/
lemma retryAux_shift {ε α : Type} (op : Nat → Except ε α) (d : Nat) :
    ∀ (n i : Nat), retryAux op d (i + 1) n = retryAux (fun j => op (j + 1)) d i n := by
  intro n
  induction n with
  | zero => intro i; simp [retryAux]
  | succ m ih =>
    intro i
    simp only [retryAux]
    cases op (i + 1) with
    | ok a => rfl
    | error e => simp [ih (i + 1)]

/-- If every attempt from index `i` through `i + n` fails, `retryAux` makes
all `n + 1` invocations, waits `n` times, and returns the final error. -/
lemma retryAux_allFail {ε α : Type} (op : Nat → Except ε α) (d : Nat) (es : Nat → ε) :
    ∀ (n i : Nat), (∀ j, j ≤ n → op (i + j) = .error (es (i + j))) →
      retryAux op d i n = (.error (es (i + n)), n + 1, n * d) := by
  intro n
  induction n with
  | zero =>
    intro i h
    have h0 := h 0 (le_refl 0)
    simp only [Nat.add_zero] at h0
    simp [retryAux, h0]
  | succ m ih =>
    intro i h
    have h0 := h 0 (Nat.zero_le _)
    simp only [Nat.add_zero] at h0
    have hr := ih (i + 1) (fun j hj => by
      have := h (j + 1) (by omega)
      simpa [Nat.add_assoc, Nat.add_comm 1 j] using this)
    simp only [retryAux, h0, hr]
    rw [show i + 1 + m = i + (m + 1) by omega, Nat.succ_mul]

/-- A structurally valid test case lacking an identifier. -/
def tcNoId : TestCase :=
  ⟨none, ⟨"tone", "set", "conv"⟩, ⟨"nm", 5, "ab"⟩, "utt", ["g"]⟩

/-! ### Claim theorems: template expansion, type guard, preconditions, retry -/

/-- C5: `replaceMultiple` processes the tokens in the caller's order, each
step replacing every literal occurrence of the token in the progressively
mutated working string; expanding "Hi \x7bname\x7d, age \x7bage\x7d" with
name → Alice and age → 5 yields "Hi Alice, age 5"; every occurrence is
replaced; and a token introduced by an earlier replacement value is itself
replaced when its token is processed later. -/
theorem replaceMultiple_spec :
    (∀ (s k v : String) (rest : List (String × String)),
        replaceMultiple s ((k, v) :: rest) = replaceMultiple (replaceAll s k v) rest) ∧
    replaceMultiple "Hi {name}, age {age}" [("{name}", "Alice"), ("{age}", "5")] =
      "Hi Alice, age 5" ∧
    replaceMultiple "{name}{name}" [("{name}", "A")] = "AA" ∧
    replaceMultiple "a {x} b" [("{x}", "{y}"), ("{y}", "Z")] = "a Z b" :=
  ⟨fun _ _ _ _ => rfl, by decide, by decide, by decide⟩

/-- C10: the type guard `isTestCase` returns false whenever `bio.age` is `0`
or any of the required string fields is empty, although such objects are
structurally valid `TestCase` values; yet it returns a truthy result for a
test case whose `goodCompletions` is the empty array. -/
theorem isTestCase_guard :
    (∀ t : TestCase,
        t.bio.age = 0 ∨ t.context.tone = "" ∨ t.context.setting = "" ∨
          t.context.conversationType = "" ∨ t.bio.name = "" ∨
          t.bio.aboutMe = "" ∨ t.utterance = "" →
        isTestCase t = false) ∧
    (∃ t : TestCase, t.goodCompletions = [] ∧ isTestCase t = true) := by
  constructor
  · intro t h
    rcases h with h | h | h | h | h | h | h <;>
      simp [isTestCase, jsTruthyString, jsTruthyNumber, jsTruthyArray, h]
  · exact ⟨⟨some "t", ⟨"a", "b", "c"⟩, ⟨"n", 1, "m"⟩, "u", []⟩, rfl, by decide⟩

/-- C10 witness: at age `0` the guard rejects a concrete, otherwise fully
populated test case. -/
theorem isTestCase_guard_witness :
    isTestCase ⟨some "t", ⟨"tone", "set", "conv"⟩, ⟨"nm", 0, "ab"⟩, "utt", ["g"]⟩ = false :=
  isTestCase_guard.1 _ (Or.inl rfl)

/-- C3: an invocation whose test case or run record lacks an identifier
fails with a precondition error and produces an empty trace: no status
write and no external service call. -/
theorem processTestCase_precondition (p : PromptCandidate) (tc : TestCase)
    (run : PromptTestResults) (env : Env) (h : tc.id = none ∨ run.id = none) :
    (∃ msg, (processTestCase p tc run env).1 = .error msg) ∧
    (processTestCase p tc run env).2 = [] := by
  rcases h with h | h
  · simp [processTestCase, h, jsTruthyOptString]
  · cases htc : jsTruthyOptString tc.id <;>
      simp [processTestCase, h, htc, show jsTruthyOptString none = false from rfl]

/-- C3 witness: the concrete id-less test case produces an error result and
an empty trace. -/
theorem processTestCase_precondition_witness :
    (∃ msg, (processTestCase pConcrete tcNoId runConcrete envAllOk).1 = .error msg) ∧
    (processTestCase pConcrete tcNoId runConcrete envAllOk).2 = [] :=
  processTestCase_precondition pConcrete tcNoId runConcrete envAllOk (Or.inl rfl)

/-- C4: the retry wrapper returns immediately on first success with a single
invocation and no wait; on failure it waits the fixed delay and retries the
shifted operation, uniformly in the error value; when all `maxAttempts`
attempts fail it has invoked the operation exactly `maxAttempts` times,
waited `maxAttempts - 1` fixed delays, and propagates the final attempt's
error unchanged; the source constants are 4 attempts and 5 seconds for both
services; and in the pipeline the completion call and each of the two
embedding calls are each attempted exactly 4 times when they keep failing. -/
theorem retryOnFailure_contract :
    (∀ (ε α : Type) (op : Nat → Except ε α) (d n : Nat) (a : α),
        1 ≤ n → op 0 = .ok a → retryOnFailure op n d = (.ok a, 1, 0)) ∧
    (∀ (ε α : Type) (op : Nat → Except ε α) (d n : Nat) (e : ε),
        2 ≤ n → op 0 = .error e →
        retryOnFailure op n d =
          ((retryOnFailure (fun i => op (i + 1)) (n - 1) d).1,
           (retryOnFailure (fun i => op (i + 1)) (n - 1) d).2.1 + 1,
           (retryOnFailure (fun i => op (i + 1)) (n - 1) d).2.2 + d)) ∧
    (∀ (ε α : Type) (op : Nat → Except ε α) (d n : Nat) (es : Nat → ε),
        1 ≤ n → (∀ i, i < n → op i = .error (es i)) →
        retryOnFailure op n d = (.error (es (n - 1)), n, (n - 1) * d)) ∧
    (OPENAI_MAX_RETRY = 4 ∧ OPENAI_WAIT_TIME_SECONDS = 5 ∧
      HUGGINGFACE_MAX_RETRY = 4 ∧ HUGGINGFACE_WAIT_TIME_SECONDS = 5) ∧
    (runPromptTestCase pConcrete tcConcrete envCompletionFails).2 =
      List.replicate 4 Event.completionCall ∧
    (runPromptTestCase pConcrete tcConcrete envEmbedGptFails).2 =
      Event.completionCall :: List.replicate 4 Event.embedGptCall ∧
    (runPromptTestCase pConcrete tcConcrete envEmbedGoodFails).2 =
      Event.completionCall :: Event.embedGptCall :: List.replicate 4 Event.embedGoodCall := by
  refine ⟨?_, ?_, ?_, ⟨rfl, rfl, rfl, rfl⟩, by decide, by decide, by decide⟩
  · intro ε α op d n a hn h
    obtain ⟨m, rfl⟩ : ∃ m, n = m + 1 := ⟨n - 1, by omega⟩
    cases m <;> simp [retryOnFailure, retryAux, h]
  · intro ε α op d n e hn h
    obtain ⟨m, rfl⟩ : ∃ m, n = m + 2 := ⟨n - 2, by omega⟩
    have hs := retryAux_shift op d m 0
    simp only [Nat.zero_add] at hs
    simp only [retryOnFailure, show m + 2 - 1 = m + 1 from rfl,
      show m + 1 - 1 = m from rfl, retryAux, h]
    simp [hs]
  · intro ε α op d n es hn h
    obtain ⟨m, rfl⟩ : ∃ m, n = m + 1 := ⟨n - 1, by omega⟩
    have ha := retryAux_allFail op d es m 0 (fun j hj => by
      simpa using h j (by omega))
    simp only [Nat.zero_add] at ha
    simp [retryOnFailure, ha]

/-- C4 witness: an always-succeeding operation is invoked once; an operation
failing on all of 3 allowed attempts is invoked 3 times and the 3rd error is
propagated. -/
theorem retryOnFailure_contract_witness :
    retryOnFailure (fun _ => (Except.ok 7 : Except String Nat)) 4 5 = (.ok 7, 1, 0) ∧
    retryOnFailure (fun i => (Except.error (toString i) : Except String Nat)) 3 0 =
      (.error "2", 3, 0) :=
  ⟨retryOnFailure_contract.1 String Nat (fun _ => .ok 7) 5 4 7 (by omega) rfl,
   retryOnFailure_contract.2.2.1 String Nat (fun i => .error (toString i)) 0 3
      (fun i => toString i) (by omega) (fun _ _ => rfl)⟩

/-! ### Vector averaging lemmas -/

lemma addVec_length (acc v : List ℚ) : (addVec acc v).length = acc.length := by
  simp [addVec]

lemma addVec_getD (acc v : List ℚ) (i : Nat) (h : i < acc.length) :
    (addVec acc v).getD i 0 = acc.getD i 0 + v.getD i 0 := by
  have h' : i < (addVec acc v).length := by rw [addVec_length]; exact h
  rw [List.getD_eq_getElem _ _ h', List.getD_eq_getElem _ _ h]
  simp [addVec, List.getElem_mapIdx]

lemma foldl_addVec_length (vs : List (List ℚ)) :
    ∀ acc, (vs.foldl addVec acc).length = acc.length := by
  induction vs with
  | nil => intro acc; rfl
  | cons v t ih => intro acc; simp [List.foldl_cons, ih, addVec_length]

lemma foldl_addVec_getD (vs : List (List ℚ)) :
    ∀ acc (i : Nat), i < acc.length →
      (vs.foldl addVec acc).getD i 0 =
        acc.getD i 0 + (vs.map (fun v => v.getD i 0)).sum := by
  induction vs with
  | nil => intro acc i _; simp
  | cons v t ih =>
    intro acc i h
    have h2 : i < (addVec acc v).length := by rw [addVec_length]; exact h
    simp only [List.foldl_cons, List.map_cons, List.sum_cons]
    rw [ih (addVec acc v) i h2, addVec_getD acc v i h]
    ring

lemma getD_replicate_zero (L i : Nat) : (List.replicate L (0 : ℚ)).getD i 0 = 0 := by
  by_cases h : i < L
  · rw [List.getD_eq_getElem _ _ (by simpa using h)]
    simp
  · rw [List.getD_eq_default]
    simpa using h

/-- C6: for non-empty equal-length vectors, `averageOfVectors` has the common
length and computes the element-wise arithmetic mean; a singleton input is
returned unchanged. -/
theorem averageOfVectors_mean (L : Nat) (vs : List (List ℚ)) (hne : vs ≠ [])
    (hlen : ∀ v ∈ vs, v.length = L) :
    (averageOfVectors vs).length = L ∧
    (∀ i, i < L → (averageOfVectors vs).getD i 0 =
        (vs.map (fun v => v.getD i 0)).sum / (vs.length : ℚ)) ∧
    (∀ v : List ℚ, averageOfVectors [v] = v) := by
  have hhead : (vs.headD []).length = L := by
    cases vs with
    | nil => exact absurd rfl hne
    | cons v t => exact hlen v (List.mem_cons_self v t)
  refine ⟨?_, ?_, ?_⟩
  · simp only [averageOfVectors, List.length_map, foldl_addVec_length,
      List.length_replicate]
    exact hhead
  · intro i hi
    have hlt : i < (vs.foldl addVec (List.replicate (vs.headD []).length 0)).length := by
      rw [foldl_addVec_length, List.length_replicate, hhead]; exact hi
    have hmap :
        i < ((vs.foldl addVec (List.replicate (vs.headD []).length 0)).map
          (fun val => val / (vs.length : ℚ))).length := by
      simpa using hlt
    rw [averageOfVectors, List.getD_eq_getElem _ _ hmap, List.getElem_map,
      ← List.getD_eq_getElem _ _ hlt,
      foldl_addVec_getD vs _ i (by rw [List.length_replicate, hhead]; exact hi),
      getD_replicate_zero, zero_add]
  · intro v
    have h2 : addVec (List.replicate v.length 0) v = v := by
      apply List.ext_getElem (by simp [addVec_length])
      intro n hn1 hn2
      have hn3 : n < (List.replicate v.length (0 : ℚ)).length := by simpa using hn2
      simp [addVec, List.getElem_mapIdx, List.getElem_replicate,
        List.getD, List.getElem?_eq_getElem hn2]
    simp [averageOfVectors, h2]

/-- C6 witness: the hypotheses and conclusion at the concrete input
`[[1, 2], [3, 4]]`. -/
theorem averageOfVectors_mean_witness :
    ([[(1 : ℚ), 2], [3, 4]] ≠ ([] : List (List ℚ))) ∧
    ((averageOfVectors [[(1 : ℚ), 2], [3, 4]]).length = 2 ∧
     (∀ i, i < 2 → (averageOfVectors [[(1 : ℚ), 2], [3, 4]]).getD i 0 =
        ([[(1 : ℚ), 2], [3, 4]].map (fun v => v.getD i 0)).sum /
          (([[(1 : ℚ), 2], [3, 4]].length : Nat) : ℚ)) ∧
     (∀ v : List ℚ, averageOfVectors [v] = v)) :=
  ⟨by simp, averageOfVectors_mean 2 [[(1 : ℚ), 2], [3, 4]] (by simp) (by decide)⟩

/-! ### Cosine similarity lemmas -/

lemma zipWith_mul_self (A : List ℝ) :
    List.zipWith (fun a b => a * b) A A = A.map fun a => a * a := by
  induction A with
  | nil => rfl
  | cons a t ih => simp [ih]

lemma zipWith_mul_negSelf (A : List ℝ) :
    List.zipWith (fun a b => a * b) A (A.map fun x => -x) =
      A.map fun a => -(a * a) := by
  induction A with
  | nil => rfl
  | cons a t ih => simp [ih, mul_neg]

lemma sum_map_negSq (l : List ℝ) :
    (l.map fun a => -(a * a)).sum = -((l.map fun a => a * a).sum) := by
  induction l with
  | nil => simp
  | cons a t ih => simp [ih]; ring

lemma sumSq_nonneg (A : List ℝ) : 0 ≤ (A.map fun a => a * a).sum := by
  refine List.sum_nonneg ?_
  intro x hx
  obtain ⟨a, _, rfl⟩ := List.mem_map.1 hx
  exact mul_self_nonneg a

lemma sumSq_pos (A : List ℝ) (h : ∃ x ∈ A, x ≠ 0) :
    0 < (A.map fun a => a * a).sum := by
  induction A with
  | nil =>
    obtain ⟨x, hx, _⟩ := h
    exact absurd hx (List.not_mem_nil x)
  | cons a t ih =>
    obtain ⟨x, hx, hne⟩ := h
    simp only [List.map_cons, List.sum_cons]
    rcases List.mem_cons.1 hx with rfl | hxt
    · exact add_pos_of_pos_of_nonneg (mul_self_pos.2 hne) (sumSq_nonneg t)
    · exact add_pos_of_nonneg_of_pos (mul_self_nonneg a) (ih ⟨x, hxt, hne⟩)

lemma mathNorm_mul_self (A : List ℝ) :
    mathNorm A * mathNorm A = (A.map fun a => a * a).sum :=
  Real.mul_self_sqrt (sumSq_nonneg A)

lemma mathNorm_neg (A : List ℝ) : mathNorm (A.map fun x => -x) = mathNorm A := by
  unfold mathNorm
  rw [List.map_map]
  have hf : ((fun a => a * a) ∘ fun x : ℝ => -x) = fun a : ℝ => a * a := by
    funext x
    simp [Function.comp_apply, neg_mul_neg]
  rw [hf]

/-- C7: for any vector with a nonzero entry, the cosine similarity of the
vector with itself is exactly 1 and with its negation exactly -1 (in the
real-number idealisation, so in particular within any floating tolerance),
and for all `B` the value is the dot product over the product of the
Euclidean norms, which is the definition. -/
theorem cosineSimilarity_self (A : List ℝ) (h : ∃ x ∈ A, x ≠ 0) :
    cosineSimilarity A A = 1 ∧
    cosineSimilarity A (A.map fun x => -x) = -1 ∧
    (∀ B : List ℝ, cosineSimilarity A B = mathDot A B / (mathNorm A * mathNorm B)) := by
  have hS := sumSq_pos A h
  refine ⟨?_, ?_, fun B => rfl⟩
  · unfold cosineSimilarity mathDot
    rw [zipWith_mul_self, mathNorm_mul_self]
    exact div_self (ne_of_gt hS)
  · unfold cosineSimilarity mathDot
    rw [zipWith_mul_negSelf, sum_map_negSq, mathNorm_neg, mathNorm_mul_self,
      neg_div, div_self (ne_of_gt hS)]

/-- C7 witness: the hypothesis and conclusion at the concrete nonzero
vector `[1]`. -/
theorem cosineSimilarity_self_witness :
    (∃ x ∈ [(1 : ℝ)], x ≠ 0) ∧
    (cosineSimilarity [(1 : ℝ)] [(1 : ℝ)] = 1 ∧
     cosineSimilarity [(1 : ℝ)] ([(1 : ℝ)].map fun x => -x) = -1 ∧
     (∀ B : List ℝ, cosineSimilarity [(1 : ℝ)] B =
        mathDot [(1 : ℝ)] B / (mathNorm [(1 : ℝ)] * mathNorm B))) :=
  ⟨⟨1, by simp⟩, cosineSimilarity_self [(1 : ℝ)] ⟨1, by simp⟩⟩

/-! ### Orchestrator trace structure -/

lemma runPromptTestCase_shape (p : PromptCandidate) (tc : TestCase) (env : Env) :
    ∃ (a b c : Nat) (tail : List Event),
      (runPromptTestCase p tc env).2 =
        List.replicate a Event.completionCall ++ List.replicate b Event.embedGptCall ++
          List.replicate c Event.embedGoodCall ++ tail ∧
      ((∃ e, (runPromptTestCase p tc env).1 = .error e ∧ tail = []) ∨
       (∃ cs, (runPromptTestCase p tc env).1 = .ok (cs, env.score) ∧
          tail = [Event.scoreComputed])) := by
  rcases hc : retryOnFailure
      (env.completion (replaceMultiple p.prompt (promptReplacements tc)))
      OPENAI_MAX_RETRY OPENAI_WAIT_TIME_SECONDS with ⟨res, nc, wc⟩
  rcases res with e | comps
  · simp only [runPromptTestCase, hc]
    exact ⟨nc, 0, 0, [], by simp, Or.inl ⟨e, rfl, rfl⟩⟩
  · rcases h1 : retryOnFailure (env.embed comps)
        HUGGINGFACE_MAX_RETRY HUGGINGFACE_WAIT_TIME_SECONDS with ⟨res1, n1, w1⟩
    rcases res1 with e1 | u1
    · simp only [runPromptTestCase, hc, h1]
      exact ⟨nc, n1, 0, [], by simp, Or.inl ⟨e1, rfl, rfl⟩⟩
    · rcases h2 : retryOnFailure (env.embed tc.goodCompletions)
          HUGGINGFACE_MAX_RETRY HUGGINGFACE_WAIT_TIME_SECONDS with ⟨res2, n2, w2⟩
      rcases res2 with e2 | u2
      · simp only [runPromptTestCase, hc, h1, h2]
        exact ⟨nc, n1, n2, [], by simp, Or.inl ⟨e2, rfl, rfl⟩⟩
      · simp only [runPromptTestCase, hc, h1, h2]
        exact ⟨nc, n1, n2, [Event.scoreComputed], by simp, Or.inr ⟨comps, rfl, rfl⟩⟩

lemma processTestCase_shape (p : PromptCandidate) (tc : TestCase)
    (run : PromptTestResults) (env : Env)
    (h1 : jsTruthyOptString tc.id = true) (h2 : jsTruthyOptString run.id = true) :
    ∃ (a b c : Nat) (tail : List Event) (term : Event),
      processTestCase p tc run env =
        (.ok (),
          Event.statusWrite (run.id.getD "") (tc.id.getD "") .IN_PROGRESS none ::
            (List.replicate a Event.completionCall ++ List.replicate b Event.embedGptCall ++
              List.replicate c Event.embedGoodCall ++ tail) ++ [term]) ∧
      (tail = [] ∨ tail = [Event.scoreComputed]) ∧
      ((∃ m, term = Event.statusWrite (run.id.getD "") (tc.id.getD "") .ERROR (some m)) ∨
       (∃ cs, term = Event.saveResult (run.id.getD "") (tc.id.getD "") env.score cs ∧
          tail = [Event.scoreComputed] ∧
          jsGt env.score (.finite 1) = false ∧ jsLt env.score (.finite (-1)) = false)) := by
  obtain ⟨a, b, c, tail, htr, hres⟩ := runPromptTestCase_shape p tc env
  rcases hr : runPromptTestCase p tc env with ⟨res, trace⟩
  rw [hr] at htr hres
  dsimp only at htr hres
  rcases res with e | rp
  · refine ⟨a, b, c, tail, Event.statusWrite (run.id.getD "") (tc.id.getD "")
      .ERROR (some e), ?_, ?_, Or.inl ⟨e, rfl⟩⟩
    · simp only [processTestCase, h1, h2, hr]
      simp [htr, List.append_assoc]
    · rcases hres with ⟨e', _, htail⟩ | ⟨cs, hok, _⟩
      · exact Or.inl htail
      · exact absurd hok (by simp)
  · rcases hres with ⟨e', he', _⟩ | ⟨cs, hok, htail⟩
    · exact absurd he' (by simp)
    · have hrp : rp = (cs, env.score) := by
        simpa using hok
      subst hrp
      by_cases hg : (jsGt env.score (.finite 1) || jsLt env.score (.finite (-1))) = true
      · refine ⟨a, b, c, tail, Event.statusWrite (run.id.getD "") (tc.id.getD "") .ERROR
          (some ("Error: Cosine similarity score is out of range [-1, 1]: "
            ++ jsNumToString env.score)), ?_, Or.inr htail, Or.inl ⟨_, rfl⟩⟩
        simp only [processTestCase, h1, h2, hr]
        simp [htr, hg, List.append_assoc]
      · rw [Bool.not_eq_true, Bool.or_eq_false_iff] at hg
        refine ⟨a, b, c, tail, Event.saveResult (run.id.getD "") (tc.id.getD "") env.score cs,
          ?_, Or.inr htail, Or.inr ⟨cs, rfl, htail, hg.1, hg.2⟩⟩
        simp only [processTestCase, h1, h2, hr]
        simp [htr, hg.1, hg.2, List.append_assoc]

/-- Whether an event is a result-store write (a status write or a result
save). -/
def Event.isWrite : Event → Bool
  | .statusWrite _ _ _ _ => true
  | .saveResult _ _ _ _ => true
  | _ => false

/-- Pipeline stage of an event: 0 the initial `IN_PROGRESS` write, 1 a
completion attempt, 2 an embedding attempt on the generated completions,
3 an embedding attempt on the reference completions, 4 the
averaging-and-scoring step, 5 a terminal store operation (an `ERROR` or
`DONE` status write or a result save). -/
def stageRank : Event → Nat
  | .statusWrite _ _ .IN_PROGRESS _ => 0
  | .completionCall => 1
  | .embedGptCall => 2
  | .embedGoodCall => 3
  | .scoreComputed => 4
  | .statusWrite _ _ _ _ => 5
  | .saveResult _ _ _ _ => 5

lemma stageRank_le_five (ev : Event) : stageRank ev ≤ 5 := by
  rcases ev with ⟨r, t, st, m⟩ | _ | _ | _ | _ | _ <;> first
    | (cases st <;> simp [stageRank])
    | simp [stageRank]

lemma mem_chunks (a b c : Nat) (tail : List Event)
    (htail : tail = [] ∨ tail = [Event.scoreComputed]) :
    ∀ ev ∈ List.replicate a Event.completionCall ++ List.replicate b Event.embedGptCall ++
        List.replicate c Event.embedGoodCall ++ tail,
      ev = Event.completionCall ∨ ev = Event.embedGptCall ∨ ev = Event.embedGoodCall ∨
        ev = Event.scoreComputed := by
  intro ev hev
  rcases htail with rfl | rfl <;>
    simp only [List.mem_append, List.mem_replicate, List.mem_singleton,
      List.not_mem_nil, or_false] at hev <;>
    tauto

lemma chunks_isWrite_false (a b c : Nat) (tail : List Event)
    (htail : tail = [] ∨ tail = [Event.scoreComputed]) :
    ∀ ev ∈ List.replicate a Event.completionCall ++ List.replicate b Event.embedGptCall ++
        List.replicate c Event.embedGoodCall ++ tail,
      ev.isWrite = false := by
  intro ev hev
  rcases mem_chunks a b c tail htail ev hev with rfl | rfl | rfl | rfl <;> rfl

lemma runPromptTestCase_trace_events (p : PromptCandidate) (tc : TestCase) (env : Env) :
    ∀ ev ∈ (runPromptTestCase p tc env).2,
      ev = Event.completionCall ∨ ev = Event.embedGptCall ∨ ev = Event.embedGoodCall ∨
        ev = Event.scoreComputed := by
  obtain ⟨a, b, c, tail, htr, hres⟩ := runPromptTestCase_shape p tc env
  intro ev hev
  rw [htr] at hev
  have htail : tail = [] ∨ tail = [Event.scoreComputed] := by
    rcases hres with ⟨_, _, h⟩ | ⟨_, _, h⟩
    · exact Or.inl h
    · exact Or.inr h
  exact mem_chunks a b c tail htail ev hev

/-- C2: with both identifiers present, `processTestCase` never raises an
error to its caller: its own result is `ok` on every path, every pipeline
failure (completion, embedding) and every range-guard violation is
converted into a persisted `ERROR` status carrying a descriptive message,
and no result save occurs on any failure path. -/
theorem processTestCase_no_throw (p : PromptCandidate) (tc : TestCase)
    (run : PromptTestResults) (env : Env)
    (h1 : jsTruthyOptString tc.id = true) (h2 : jsTruthyOptString run.id = true) :
    (processTestCase p tc run env).1 = Except.ok () ∧
    (∀ e, (runPromptTestCase p tc env).1 = .error e →
      Event.statusWrite (run.id.getD "") (tc.id.getD "")
          TestResultsStatus.ERROR (some e) ∈ (processTestCase p tc run env).2 ∧
      (∀ rid tid s cs,
        Event.saveResult rid tid s cs ∉ (processTestCase p tc run env).2)) ∧
    (∀ cs s, (runPromptTestCase p tc env).1 = .ok (cs, s) →
      (jsGt s (.finite 1) || jsLt s (.finite (-1))) = true →
      Event.statusWrite (run.id.getD "") (tc.id.getD "") TestResultsStatus.ERROR
          (some ("Error: Cosine similarity score is out of range [-1, 1]: "
            ++ jsNumToString s)) ∈ (processTestCase p tc run env).2 ∧
      (∀ rid tid s' cs',
        Event.saveResult rid tid s' cs' ∉ (processTestCase p tc run env).2)) := by
  obtain ⟨a, b, c, tail, term, heq, htail, hterm⟩ :=
    processTestCase_shape p tc run env h1 h2
  refine ⟨by rw [heq], ?_, ?_⟩
  · intro e he
    have htrace : (processTestCase p tc run env).2 =
        Event.statusWrite (run.id.getD "") (tc.id.getD "") .IN_PROGRESS none ::
          (runPromptTestCase p tc env).2 ++
          [Event.statusWrite (run.id.getD "") (tc.id.getD "")
            TestResultsStatus.ERROR (some e)] := by
      simp [processTestCase, h1, h2, he]
    constructor
    · rw [htrace]
      simp
    · intro rid tid s cs hmem
      rw [htrace] at hmem
      rcases List.mem_cons.1 hmem with h | h
      · exact absurd h (by simp)
      · rcases List.mem_append.1 h with h | h
        · rcases runPromptTestCase_trace_events p tc env _ h with h' | h' | h' | h' <;>
            simp at h'
        · simp at h
  · intro cs s hok hg
    have htrace : (processTestCase p tc run env).2 =
        Event.statusWrite (run.id.getD "") (tc.id.getD "") .IN_PROGRESS none ::
          (runPromptTestCase p tc env).2 ++
          [Event.statusWrite (run.id.getD "") (tc.id.getD "")
            TestResultsStatus.ERROR
            (some ("Error: Cosine similarity score is out of range [-1, 1]: "
              ++ jsNumToString s))] := by
      simp [processTestCase, h1, h2, hok, hg]
    constructor
    · rw [htrace]
      simp
    · intro rid tid s' cs' hmem
      rw [htrace] at hmem
      rcases List.mem_cons.1 hmem with h | h
      · exact absurd h (by simp)
      · rcases List.mem_append.1 h with h | h
        · rcases runPromptTestCase_trace_events p tc env _ h with h' | h' | h' | h' <;>
            simp at h'
        · simp at h

lemma pairwise_stage_chunks (a b c : Nat) (tail : List Event)
    (htail : tail = [] ∨ tail = [Event.scoreComputed]) :
    List.Pairwise (fun x y => stageRank x ≤ stageRank y)
      (List.replicate a Event.completionCall ++ List.replicate b Event.embedGptCall ++
        List.replicate c Event.embedGoodCall ++ tail) := by
  have hrep : ∀ (n : Nat) (ev : Event),
      List.Pairwise (fun x y => stageRank x ≤ stageRank y) (List.replicate n ev) :=
    fun n ev => List.pairwise_replicate.2 (Or.inr le_rfl)
  have hmr : ∀ {x : Event} {n : Nat} {ev : Event}, x ∈ List.replicate n ev → x = ev :=
    fun h => (List.mem_replicate.1 h).2
  have hx3 : ∀ x ∈ List.replicate a Event.completionCall ++
      List.replicate b Event.embedGptCall ++ List.replicate c Event.embedGoodCall,
      stageRank x ≤ 3 := by
    intro x hx
    rcases List.mem_append.1 hx with hx | hx
    · rcases List.mem_append.1 hx with hx | hx <;> (rw [hmr hx]; decide)
    · rw [hmr hx]; decide
  refine List.pairwise_append.2 ⟨?_, ?_, ?_⟩
  · refine List.pairwise_append.2 ⟨List.pairwise_append.2 ⟨hrep _ _, hrep _ _, ?_⟩,
      hrep _ _, ?_⟩
    · intro x hx y hy
      rw [hmr hx, hmr hy]
      decide
    · intro x hx y hy
      rw [hmr hy]
      rcases List.mem_append.1 hx with hx | hx <;> (rw [hmr hx]; decide)
  · rcases htail with rfl | rfl <;> simp
  · intro x hx y hy
    rcases htail with rfl | rfl
    · simp at hy
    · simp only [List.mem_singleton] at hy
      subst hy
      exact le_trans (hx3 x hx) (by decide)

/-- C8: with both identifiers present, the trace begins with the
`IN_PROGRESS` status write — before any external service call — and the
stage ranks are monotone along the whole trace: completion attempts precede
embedding attempts, the embeddings of the generated completions precede
those of the reference completions, and all of them precede the
averaging-and-scoring step and the terminal store operation. -/
theorem processTestCase_ordering (p : PromptCandidate) (tc : TestCase)
    (run : PromptTestResults) (env : Env)
    (h1 : jsTruthyOptString tc.id = true) (h2 : jsTruthyOptString run.id = true) :
    (processTestCase p tc run env).2.head? =
      some (Event.statusWrite (run.id.getD "") (tc.id.getD "")
        TestResultsStatus.IN_PROGRESS none) ∧
    List.Pairwise (fun x y => stageRank x ≤ stageRank y)
      (processTestCase p tc run env).2 := by
  obtain ⟨a, b, c, tail, term, heq, htail, hterm⟩ :=
    processTestCase_shape p tc run env h1 h2
  have hrank5 : stageRank term = 5 := by
    rcases hterm with ⟨m, rfl⟩ | ⟨cs, rfl, _⟩ <;> rfl
  constructor
  · rw [heq]
    rfl
  · rw [heq]
    dsimp only
    refine List.Pairwise.cons ?_ ?_
    · intro y hy
      exact Nat.zero_le _
    · refine List.pairwise_append.2 ⟨pairwise_stage_chunks a b c tail htail, by simp, ?_⟩
      intro x hx y hy
      simp only [List.mem_singleton] at hy
      subst hy
      rw [hrank5]
      exact stageRank_le_five x

/-- C9: with both identifiers present, the store writes of one invocation
are exactly the initial `IN_PROGRESS` write for the (run id, test case id)
key followed by exactly one terminal operation for the same key — an
`ERROR` status write or a result save (which persists `DONE`) — so the
record transitions to exactly one terminal status exactly once and never
reverts to `IN_PROGRESS`. -/
theorem processTestCase_single_transition (p : PromptCandidate) (tc : TestCase)
    (run : PromptTestResults) (env : Env)
    (h1 : jsTruthyOptString tc.id = true) (h2 : jsTruthyOptString run.id = true) :
    ∃ term : Event,
      ((processTestCase p tc run env).2.filter Event.isWrite) =
        [Event.statusWrite (run.id.getD "") (tc.id.getD "")
          TestResultsStatus.IN_PROGRESS none, term] ∧
      ((∃ m, term = Event.statusWrite (run.id.getD "") (tc.id.getD "")
          TestResultsStatus.ERROR (some m)) ∨
       (∃ s cs, term = Event.saveResult (run.id.getD "") (tc.id.getD "") s cs)) := by
  obtain ⟨a, b, c, tail, term, heq, htail, hterm⟩ :=
    processTestCase_shape p tc run env h1 h2
  have hnil : (List.replicate a Event.completionCall ++ List.replicate b Event.embedGptCall ++
      List.replicate c Event.embedGoodCall ++ tail).filter Event.isWrite = [] := by
    rw [List.filter_eq_nil_iff]
    intro ev hev
    simp [chunks_isWrite_false a b c tail htail ev hev]
  have htailf : List.filter Event.isWrite tail = [] := by
    rcases htail with rfl | rfl <;> rfl
  rcases hterm with ⟨m, rfl⟩ | ⟨cs0, rfl, htl, hgt, hlt⟩
  · refine ⟨_, ?_, Or.inl ⟨m, rfl⟩⟩
    rw [heq]
    simp [List.filter_append, List.filter_cons, List.filter_replicate,
      hnil, htailf, Event.isWrite]
  · refine ⟨_, ?_, Or.inr ⟨env.score, cs0, rfl⟩⟩
    rw [heq]
    simp [List.filter_append, List.filter_cons, List.filter_replicate,
      hnil, htailf, Event.isWrite]

/-- C1 (amended): with both identifiers present, every result save (the
`DONE` persist) carries either a finite score in `[-1, 1]` or `NaN`; a
computed score of `Infinity`, `-Infinity`, or a finite value outside
`[-1, 1]` is never saved and yields a persisted `ERROR`. `NaN` is the
exception to the claim: the guard `score > 1 || score < -1` is false for
`NaN` under JavaScript comparison semantics, so a `NaN` score is saved as
`DONE` (see the counterexample). -/
theorem processTestCase_done_range (p : PromptCandidate) (tc : TestCase)
    (run : PromptTestResults) (env : Env)
    (h1 : jsTruthyOptString tc.id = true) (h2 : jsTruthyOptString run.id = true) :
    (∀ rid tid s cs, Event.saveResult rid tid s cs ∈ (processTestCase p tc run env).2 →
        s = JsNum.nan ∨ ∃ q, s = JsNum.finite q ∧ -1 ≤ q ∧ q ≤ 1) ∧
    ((env.score = JsNum.posInf ∨ env.score = JsNum.negInf ∨
        (∃ q, env.score = JsNum.finite q ∧ (1 < q ∨ q < -1))) →
      (∀ rid tid s cs,
        Event.saveResult rid tid s cs ∉ (processTestCase p tc run env).2) ∧
      (∃ m, Event.statusWrite (run.id.getD "") (tc.id.getD "")
          TestResultsStatus.ERROR (some m) ∈ (processTestCase p tc run env).2)) := by
  obtain ⟨a, b, c, tail, term, heq, htail, hterm⟩ :=
    processTestCase_shape p tc run env h1 h2
  have hsave : ∀ rid tid s cs,
      Event.saveResult rid tid s cs ∈ (processTestCase p tc run env).2 →
      Event.saveResult rid tid s cs = term := by
    intro rid tid s cs hmem
    rw [heq] at hmem
    dsimp only at hmem
    rcases List.mem_append.1 hmem with h | h
    · rcases List.mem_cons.1 h with h | h
      · exact absurd h (by simp)
      · rcases mem_chunks a b c tail htail _ h with h' | h' | h' | h' <;> simp at h'
    · simpa using h
  constructor
  · intro rid tid s cs hmem
    have hst := hsave rid tid s cs hmem
    rcases hterm with ⟨m, rfl⟩ | ⟨cs', rfl, _, hgt, hlt⟩
    · simp at hst
    · have hs : s = env.score := by
        simpa using (Event.saveResult.inj hst).2.2.1
      rcases hscore : env.score with q | _ | _ | _
      · right
        refine ⟨q, by rw [hs, hscore], ?_, ?_⟩
        · rw [hscore] at hlt
          simp [jsLt] at hlt
          linarith
        · rw [hscore] at hgt
          simp [jsGt, jsLt] at hgt
          linarith
      · left
        rw [hs, hscore]
      · rw [hscore] at hgt
        simp [jsGt, jsLt] at hgt
      · rw [hscore] at hlt
        simp [jsLt] at hlt
  · intro hbad
    have hterm' : ∃ m, term = Event.statusWrite (run.id.getD "") (tc.id.getD "")
        TestResultsStatus.ERROR (some m) := by
      rcases hterm with h | ⟨cs', rfl, _, hgt, hlt⟩
      · exact h
      · exfalso
        rcases hbad with hb | hb | ⟨q, hb, hq⟩
        · rw [hb] at hgt
          simp [jsGt, jsLt] at hgt
        · rw [hb] at hlt
          simp [jsLt] at hlt
        · rw [hb] at hgt hlt
          simp [jsGt, jsLt] at hgt hlt
          rcases hq with hq | hq
          · exact absurd hq (by simpa using hgt)
          · exact absurd hq (by simpa using hlt)
    obtain ⟨m, rfl⟩ := hterm'
    constructor
    · intro rid tid s cs hmem
      have := hsave rid tid s cs hmem
      simp at this
    · refine ⟨m, ?_⟩
      rw [heq]
      simp

/-- C1 counterexample: in a run where both services succeed and the computed
cosine-similarity value is `NaN`, the record is persisted via the result
save (status `DONE`) with the non-finite score, and no `ERROR` status is
ever written — refuting the claim that any non-finite value results in
`ERROR` and never `DONE`. -/
theorem nan_score_saved_as_done :
    (processTestCase pConcrete tcConcrete runConcrete envNaNScore).2 =
      [Event.statusWrite "r" "t" TestResultsStatus.IN_PROGRESS none,
       Event.completionCall, Event.embedGptCall, Event.embedGoodCall,
       Event.scoreComputed,
       Event.saveResult "r" "t" JsNum.nan ["c"]] ∧
    ((processTestCase pConcrete tcConcrete runConcrete envNaNScore).2.filter
        Event.isWrite) =
      [Event.statusWrite "r" "t" TestResultsStatus.IN_PROGRESS none,
       Event.saveResult "r" "t" JsNum.nan ["c"]] := by
  decide

/-- C2 witness: at a concrete failing-completion environment the invocation
still returns `ok`. -/
theorem processTestCase_no_throw_witness :
    jsTruthyOptString tcConcrete.id = true ∧ jsTruthyOptString runConcrete.id = true ∧
    (processTestCase pConcrete tcConcrete runConcrete envCompletionFails).1 =
      Except.ok () :=
  ⟨by decide, by decide,
    (processTestCase_no_throw pConcrete tcConcrete runConcrete envCompletionFails
      (by decide) (by decide)).1⟩

/-- C8 witness: stage ranks are monotone along the concrete all-success
trace. -/
theorem processTestCase_ordering_witness :
    jsTruthyOptString tcConcrete.id = true ∧ jsTruthyOptString runConcrete.id = true ∧
    List.Pairwise (fun x y => stageRank x ≤ stageRank y)
      (processTestCase pConcrete tcConcrete runConcrete envAllOk).2 :=
  ⟨by decide, by decide,
    (processTestCase_ordering pConcrete tcConcrete runConcrete envAllOk
      (by decide) (by decide)).2⟩

/-- C9 witness: the concrete all-success invocation performs exactly the
`IN_PROGRESS` write followed by one terminal store operation. -/
theorem processTestCase_single_transition_witness :
    jsTruthyOptString tcConcrete.id = true ∧ jsTruthyOptString runConcrete.id = true ∧
    (∃ term : Event,
      ((processTestCase pConcrete tcConcrete runConcrete envAllOk).2.filter
          Event.isWrite) =
        [Event.statusWrite (runConcrete.id.getD "") (tcConcrete.id.getD "")
          TestResultsStatus.IN_PROGRESS none, term] ∧
      ((∃ m, term = Event.statusWrite (runConcrete.id.getD "") (tcConcrete.id.getD "")
          TestResultsStatus.ERROR (some m)) ∨
       (∃ s cs, term = Event.saveResult (runConcrete.id.getD "")
          (tcConcrete.id.getD "") s cs))) :=
  ⟨by decide, by decide,
    processTestCase_single_transition pConcrete tcConcrete runConcrete envAllOk
      (by decide) (by decide)⟩

/-- C1 witness: at the concrete environment whose computed score is
`Infinity`, nothing is saved and an `ERROR` status is written. -/
theorem processTestCase_done_range_witness :
    jsTruthyOptString tcConcrete.id = true ∧ jsTruthyOptString runConcrete.id = true ∧
    (∀ rid tid s cs, Event.saveResult rid tid s cs ∉
      (processTestCase pConcrete tcConcrete runConcrete envInfScore).2) ∧
    (∃ m, Event.statusWrite (runConcrete.id.getD "") (tcConcrete.id.getD "")
        TestResultsStatus.ERROR (some m) ∈
      (processTestCase pConcrete tcConcrete runConcrete envInfScore).2) :=
  ⟨by decide, by decide,
    ((processTestCase_done_range pConcrete tcConcrete runConcrete envInfScore
      (by decide) (by decide)).2 (Or.inl rfl)).1,
    ((processTestCase_done_range pConcrete tcConcrete runConcrete envInfScore
      (by decide) (by decide)).2 (Or.inl rfl)).2⟩
